import Mathlib

set_option maxHeartbeats 1000000

/-!
Shallow embedding of the darts-UNIQ staged-quantization core:
`UNIQ/actquant.py`, `cnn/model_search.py`, `cnn/models/BaseNet.py` and
`cnn/trainRegime/optimalModel.py`.  Tensors are abstracted to rationals
(or to an abstract type with the algebraic structure the code uses),
parameter stores to maps from parameter ids to `requires_grad` flags, and
Python exceptions (`assert`, `IndexError`, `ValueError`, `KeyError`) to
`Except` errors.
-/

/-- Activation-quantization module state (`ActQuant.__init__`,
UNIQ/actquant.py).  Field names follow the source, including the
`quatize` spelling. -/
structure ActQuant where
  quant : Bool
  noise : Bool
  bitwidth : Nat
  quatize_during_training : Bool
  noise_during_training : Bool
deriving DecidableEq, Repr

/-- Result of `ActQuant.forward`: which arithmetic was applied to the input.
The numeric kernels `act_quantize.apply` / `act_noise.apply`
(UNIQ/quantize.py) are outside the spec's arithmetic contract, so the
constructor records symbolically which kernel ran and with which arguments;
`F.relu` is concrete (`max · 0`). -/
inductive ActOut
  | quantized (x : ℚ) (bitwidth : Nat)
  | noised (x : ℚ) (bitwidth : Nat)
  | relu (y : ℚ)
deriving DecidableEq, Repr

/-- `ActQuant.forward` (UNIQ/actquant.py lines 21-32).  The `assert (False)`
in the noise branch is modelled as `Except.error ()`; the
`assert isinstance(self.bitwidth, int)` in the quant branch always holds
here since `bitwidth : Nat`. -/
def ActQuant.forward (m : ActQuant) (training : Bool) (input : ℚ) : Except Unit ActOut :=
  if m.quant && (!training || (training && m.quatize_during_training)) then
    .ok (.quantized input m.bitwidth)
  else if m.noise && training && m.noise_during_training then
    .error ()
  else
    .ok (.relu (max input 0))

/-! ## `Network` staging state (cnn/model_search.py) -/

/-- Submodule of a candidate operation, as `Network.switch_stage` classifies
the results of `op.modules()`: a `Conv2d` (carrying the ids of its
parameters in the global parameter store), an `ActQuant`, or a module of
any other class. -/
inductive OpModule
  | conv (params : List Nat)
  | act (a : ActQuant)
  | other
deriving DecidableEq, Repr

/-- Candidate operation held by a `MixedOp`: flagged whether it is a
`UNIQNet` (quantizable) operation, with its flat submodule list. -/
structure CandOp where
  isUNIQNet : Bool
  modules : List OpModule
deriving DecidableEq, Repr

/-- Entry of `cell._ops`: a `MixedOp` (with its candidate-operation list) or
a module of another class, which `switch_stage` skips. -/
inductive CellOp
  | mixed (ops : List CandOp)
  | other
deriving DecidableEq, Repr

/-- Search cell as `switch_stage` sees it: its `_ops` module list. -/
structure SCell where
  ops : List CellOp
deriving DecidableEq, Repr

/-- State of the search `Network` relevant to staging: the cell list, the
staging cursor `nLayersQuantCompleted`, the cached learnable-parameter
list, and the global `requires_grad` store (parameter id to flag). -/
structure SNetwork where
  cells : List SCell
  nLayersQuantCompleted : Nat
  learnable_params : List Nat
  requires_grad : Nat → Bool

/-- `parameters()` after the rebinding in `Network.__init__`
(`self.parameters = self.getLearnableParams`): it returns the cached
learnable-parameter list. -/
def SNetwork.parameters (net : SNetwork) : List Nat :=
  net.learnable_params

/-- Parameter ids frozen by `switch_stage` in one submodule: the parameters
of a `Conv2d`; nothing for the other module kinds. -/
def OpModule.frozenParams : OpModule → List Nat
  | .conv ps => ps
  | _ => []

/-- Flag flips `switch_stage` applies to one submodule: an `ActQuant` gets
`quatize_during_training := True` and `noise_during_training := False`;
other modules are left unchanged. -/
def OpModule.staged : OpModule → OpModule
  | .act a => .act { a with quatize_during_training := true, noise_during_training := false }
  | m => m

/-- Parameter ids `switch_stage` freezes inside one candidate operation:
only `UNIQNet` operations are touched. -/
def CandOp.frozenParams (op : CandOp) : List Nat :=
  if op.isUNIQNet then (op.modules.map OpModule.frozenParams).flatten else []

/-- Staging of one candidate operation: flag flips on the submodules of a
`UNIQNet` operation, identity otherwise. -/
def CandOp.staged (op : CandOp) : CandOp :=
  if op.isUNIQNet then { op with modules := op.modules.map OpModule.staged } else op

/-- Parameter ids `switch_stage` freezes inside one `cell._ops` entry;
non-`MixedOp` entries are skipped by the `isinstance` check. -/
def CellOp.frozenParams : CellOp → List Nat
  | .mixed ops => (ops.map CandOp.frozenParams).flatten
  | .other => []

/-- Staging of one `cell._ops` entry. -/
def CellOp.staged : CellOp → CellOp
  | .mixed ops => .mixed (ops.map CandOp.staged)
  | .other => .other

/-- All parameter ids of `Conv2d` modules of `UNIQNet` ops of a cell:
exactly the parameters whose `requires_grad` is cleared when the cell is
committed. -/
def SCell.frozenParams (c : SCell) : List Nat :=
  (c.ops.map CellOp.frozenParams).flatten

/-- The cell after `switch_stage` committed it. -/
def SCell.staged (c : SCell) : SCell :=
  ⟨c.ops.map CellOp.staged⟩

/-- `Network.switch_stage` (cnn/model_search.py lines 149-175).
`self.cells[self.nLayersQuantCompleted]` raises `IndexError` when the
cursor is out of range (modelled as `Except.error`); otherwise the current
cell's `UNIQNet` ops have their convolution parameters' `requires_grad`
cleared and their `ActQuant` flags flipped, `learnable_params` is
recomputed by filtering the rebound `parameters()` by `requires_grad`, and
the cursor advances by one.  The `logger` argument only emits a log line
and is omitted. -/
def switch_stage (net : SNetwork) : Except String SNetwork :=
  match net.cells.get? net.nLayersQuantCompleted with
  | none => .error "IndexError"
  | some cell =>
    let g : Nat → Bool := fun p => if p ∈ cell.frozenParams then false else net.requires_grad p
    .ok { cells := net.cells.set net.nLayersQuantCompleted cell.staged,
          nLayersQuantCompleted := net.nLayersQuantCompleted + 1,
          learnable_params := net.parameters.filter g,
          requires_grad := g }

/-- Repeated `switch_stage` calls, a raised exception propagating. -/
def iterate_switch : Nat → SNetwork → Except String SNetwork
  | 0, net => .ok net
  | k + 1, net => (switch_stage net).bind (iterate_switch k)

/-! ## Helper lemmas about `switch_stage` -/

theorem switch_stage_fields (net net' : SNetwork) (h : switch_stage net = .ok net') :
    ∃ cell, net.cells.get? net.nLayersQuantCompleted = some cell ∧
      net'.cells = net.cells.set net.nLayersQuantCompleted cell.staged ∧
      net'.nLayersQuantCompleted = net.nLayersQuantCompleted + 1 ∧
      net'.requires_grad = (fun p => if p ∈ cell.frozenParams then false else net.requires_grad p) ∧
      net'.learnable_params = net.learnable_params.filter net'.requires_grad := by
  unfold switch_stage at h
  cases hg : net.cells.get? net.nLayersQuantCompleted with
  | none => rw [hg] at h; exact absurd h (by simp)
  | some cell =>
    rw [hg] at h
    simp only [Except.ok.injEq] at h
    subst h
    exact ⟨cell, rfl, rfl, rfl, rfl, rfl⟩

theorem switch_stage_error_iff (net : SNetwork) :
    switch_stage net = .error "IndexError" ↔ net.cells.length ≤ net.nLayersQuantCompleted := by
  unfold switch_stage
  cases hg : net.cells.get? net.nLayersQuantCompleted with
  | none =>
    simp only [List.get?_eq_none] at hg
    simpa using hg
  | some cell =>
    have hlt : net.nLayersQuantCompleted < net.cells.length := by
      by_contra hge
      rw [List.get?_eq_none.mpr (by omega)] at hg
      exact absurd hg (by simp)
    constructor
    · intro hcontra; exact absurd hcontra (by simp)
    · intro hge; exact absurd hge (by omega)

theorem switch_stage_ok_of_lt (net : SNetwork)
    (hlt : net.nLayersQuantCompleted < net.cells.length) :
    ∃ net', switch_stage net = .ok net' ∧
      net'.nLayersQuantCompleted = net.nLayersQuantCompleted + 1 ∧
      net'.cells.length = net.cells.length := by
  unfold switch_stage
  rw [List.get?_eq_get hlt]
  exact ⟨_, rfl, rfl, by simp⟩

theorem iterate_switch_fill (k : Nat) : ∀ net : SNetwork,
    net.nLayersQuantCompleted + k = net.cells.length →
    ∃ net', iterate_switch k net = .ok net' ∧
      net'.nLayersQuantCompleted = net.cells.length ∧
      net'.cells.length = net.cells.length := by
  induction k with
  | zero =>
    intro net h
    exact ⟨net, rfl, by omega, rfl⟩
  | succ k ih =>
    intro net h
    obtain ⟨net1, hs, hcur1, hlen1⟩ := switch_stage_ok_of_lt net (by omega)
    obtain ⟨net', hit, hcur, hlen⟩ := ih net1 (by omega)
    refine ⟨net', ?_, by omega, by omega⟩
    show (switch_stage net).bind (iterate_switch k) = .ok net'
    rw [hs]
    exact hit

/-- C1 (amended): starting with the staging cursor at `0`, the first `L`
calls to `switch_stage` (`L` being the number of cells) all succeed and
leave `nLayersQuantCompleted = L`; the `(L+1)`-th call is not a no-op: it
raises `IndexError` (`self.cells[self.nLayersQuantCompleted]` is out of
range), so the call produces no new state and the cursor never exceeds
`L`. -/
theorem switch_stage_L_calls_then_indexerror (net : SNetwork)
    (h0 : net.nLayersQuantCompleted = 0) :
    ∃ net', iterate_switch net.cells.length net = .ok net' ∧
      net'.nLayersQuantCompleted = net.cells.length ∧
      switch_stage net' = .error "IndexError" := by
  obtain ⟨net', hit, hcur, hlen⟩ := iterate_switch_fill net.cells.length net (by omega)
  exact ⟨net', hit, hcur, (switch_stage_error_iff net').mpr (by omega)⟩

/-- Witness for the amended C1 on a concrete one-cell network. -/
def exNetC1 : SNetwork :=
  { cells := [⟨[CellOp.mixed [⟨true, [OpModule.conv [0],
        OpModule.act ⟨true, true, 3, false, true⟩]⟩]]⟩],
    nLayersQuantCompleted := 0,
    learnable_params := [0],
    requires_grad := fun _ => true }

theorem switch_stage_L_calls_then_indexerror_witness :
    exNetC1.nLayersQuantCompleted = 0 ∧
    ∃ net', iterate_switch exNetC1.cells.length exNetC1 = .ok net' ∧
      net'.nLayersQuantCompleted = exNetC1.cells.length ∧
      switch_stage net' = .error "IndexError" :=
  ⟨rfl, switch_stage_L_calls_then_indexerror exNetC1 rfl⟩

/-- C1 counterexample: on a concrete network with `L = 1` stageable layer
and the cursor starting at `0`, the first `switch_stage` call succeeds and
sets the cursor to `1`, but the second (the `(L+1)`-th) call raises
`IndexError` instead of being an error-free no-op, refuting the claim as
stated. -/
theorem switch_stage_second_call_raises :
    (iterate_switch 1 exNetC1).map SNetwork.nLayersQuantCompleted = .ok 1 ∧
    iterate_switch 2 exNetC1 = .error "IndexError" :=
  ⟨rfl, rfl⟩

/-- Flag state `switch_stage` leaves on a committed submodule: every
`ActQuant` has `quatize_during_training` set and `noise_during_training`
cleared. -/
def OpModule.flagsCommitted : OpModule → Prop
  | .act a => a.quatize_during_training = true ∧ a.noise_during_training = false
  | _ => True

theorem staged_flagsCommitted (m : OpModule) : m.staged.flagsCommitted := by
  cases m <;> simp [OpModule.staged, OpModule.flagsCommitted]

theorem staged_cell_flags (cell : SCell) :
    ∀ co ∈ cell.staged.ops, ∀ ops, co = CellOp.mixed ops →
      ∀ op ∈ ops, op.isUNIQNet = true → ∀ m ∈ op.modules, OpModule.flagsCommitted m := by
  intro co hco ops heq op hop hUNIQ m hm
  rcases List.mem_map.mp hco with ⟨co0, _hco0, hfeq⟩
  subst hfeq
  cases co0 with
  | other => simp [CellOp.staged] at heq
  | mixed ops0 =>
    simp only [CellOp.staged, CellOp.mixed.injEq] at heq
    subst heq
    rcases List.mem_map.mp hop with ⟨op0, _hop0, hfeq⟩
    subst hfeq
    by_cases hq : op0.isUNIQNet
    · simp only [CandOp.staged, hq, if_pos] at hm hUNIQ ⊢
      rcases List.mem_map.mp hm with ⟨m0, _hm0, hfeq⟩
      subst hfeq
      exact staged_flagsCommitted m0
    · simp [CandOp.staged, hq] at hUNIQ

/-- C2: a `switch_stage` call with the cursor at an in-range index `k`
clears `requires_grad` on every `Conv2d` parameter of the `UNIQNet` ops of
cell `k`, leaves every other parameter's flag (in particular those of cells
with index greater than `k`) unchanged, replaces cell `k` by its staged
version — in which every `ActQuant` of a `MixedOp`'s ops has
`quatize_during_training = True` and `noise_during_training = False` —
leaves every other cell untouched, recomputes `learnable_params` by
filtering the previous list by `requires_grad`, and increments
`nLayersQuantCompleted` by exactly 1. -/
theorem switch_stage_commits_current_cell (net net' : SNetwork) (cell : SCell)
    (hc : net.cells.get? net.nLayersQuantCompleted = some cell)
    (h : switch_stage net = .ok net') :
    net'.nLayersQuantCompleted = net.nLayersQuantCompleted + 1 ∧
    (∀ p ∈ cell.frozenParams, net'.requires_grad p = false) ∧
    (∀ p, p ∉ cell.frozenParams → net'.requires_grad p = net.requires_grad p) ∧
    net'.cells.get? net.nLayersQuantCompleted = some cell.staged ∧
    (∀ j, j ≠ net.nLayersQuantCompleted → net'.cells.get? j = net.cells.get? j) ∧
    (∀ co ∈ cell.staged.ops, ∀ ops, co = CellOp.mixed ops →
      ∀ op ∈ ops, op.isUNIQNet = true → ∀ m ∈ op.modules, OpModule.flagsCommitted m) ∧
    net'.learnable_params = net.learnable_params.filter net'.requires_grad := by
  obtain ⟨cell2, hc2, hcells, hcur, hgrad, hlearn⟩ := switch_stage_fields net net' h
  rw [hc] at hc2
  injection hc2 with hc2
  subst hc2
  have hlt : net.nLayersQuantCompleted < net.cells.length := by
    by_contra hge
    rw [List.get?_eq_none.mpr (by omega)] at hc
    exact absurd hc (by simp)
  refine ⟨hcur, ?_, ?_, ?_, ?_, staged_cell_flags cell, hlearn⟩
  · intro p hp
    rw [hgrad]
    simp [hp]
  · intro p hp
    rw [hgrad]
    simp [hp]
  · rw [hcells]
    exact List.get?_set_eq_of_lt _ hlt
  · intro j hj
    rw [hcells]
    exact List.get?_set_ne _ _ (fun hEq => hj hEq.symm)

/-- Concrete three-cell network for the C2 end-to-end scenario: one
quantizable op per cell, holding one convolution parameter each
(ids 10, 11, 12), every parameter initially trainable. -/
def exC2cell (pid : Nat) : SCell :=
  ⟨[CellOp.mixed [⟨true, [OpModule.conv [pid],
      OpModule.act ⟨true, true, 3, false, true⟩]⟩]]⟩

def exC2net : SNetwork :=
  { cells := [exC2cell 10, exC2cell 11, exC2cell 12],
    nLayersQuantCompleted := 0,
    learnable_params := [10, 11, 12],
    requires_grad := fun _ => true }

/-- First and second staging states of `exC2net`, by evaluation. -/
def exC2net1 : SNetwork :=
  match switch_stage exC2net with
  | .ok n => n
  | .error _ => exC2net

def exC2net2 : SNetwork :=
  match switch_stage exC2net1 with
  | .ok n => n
  | .error _ => exC2net1

/-- Witness for C2, realising the spec's 3-layer scenario: after two
`switch_stage` calls, the convolution parameters of layers 0 and 1
(ids 10, 11) have `requires_grad = False` while layer 2's parameter
(id 12) is still trainable, and the cursor is 2. -/
theorem switch_stage_commits_current_cell_witness :
    switch_stage exC2net = .ok exC2net1 ∧
    switch_stage exC2net1 = .ok exC2net2 ∧
    exC2net2.nLayersQuantCompleted = 2 ∧
    exC2net2.requires_grad 10 = false ∧
    exC2net2.requires_grad 11 = false ∧
    exC2net2.requires_grad 12 = true := by
  have h1 := switch_stage_commits_current_cell exC2net exC2net1 (exC2cell 10) rfl rfl
  have h2 := switch_stage_commits_current_cell exC2net1 exC2net2 (exC2cell 11) rfl rfl
  refine ⟨rfl, rfl, ?_, ?_, ?_, ?_⟩
  · rw [h2.1, h1.1]
    rfl
  · rw [h2.2.2.1 10 (by decide), h1.2.1 10 (by decide)]
  · exact h2.2.1 11 (by decide)
  · rw [h2.2.2.1 12 (by decide), h1.2.2.1 12 (by decide)]
    rfl

/-- C10: after construction `parameters()` returns the cached
learnable-parameter list, every successful `switch_stage` recomputes that
cache by filtering the previous list by `requires_grad`, hence the cache is
a sublist of its previous value, a parameter absent from the cache never
reappears in `parameters()`, and across any number of calls the cache
remains a sublist of the initial one. -/
theorem parameters_rebound_and_nonincreasing (net net' : SNetwork)
    (h : switch_stage net = .ok net') :
    SNetwork.parameters net = net.learnable_params ∧
    net'.learnable_params = net.learnable_params.filter net'.requires_grad ∧
    net'.learnable_params.Sublist net.learnable_params ∧
    (∀ p, p ∉ net.learnable_params → p ∉ net'.learnable_params) ∧
    (∀ k net'', iterate_switch k net = .ok net'' →
      net''.learnable_params.Sublist net.learnable_params) := by
  obtain ⟨cell, _, _, _, _, hlearn⟩ := switch_stage_fields net net' h
  have hsub : net'.learnable_params.Sublist net.learnable_params := by
    rw [hlearn]; exact List.filter_sublist _
  have hiter : ∀ k net0 net'', iterate_switch k net0 = .ok net'' →
      net''.learnable_params.Sublist net0.learnable_params := by
    intro k
    induction k with
    | zero =>
      intro net0 net'' hit
      simp only [iterate_switch, Except.ok.injEq] at hit
      subst hit
      exact List.Sublist.refl _
    | succ k ih =>
      intro net0 net'' hit
      simp only [iterate_switch] at hit
      cases hs : switch_stage net0 with
      | error e => rw [hs] at hit; exact absurd hit (by simp [Except.bind])
      | ok net1 =>
        rw [hs] at hit
        have h1 : net1.learnable_params.Sublist net0.learnable_params := by
          obtain ⟨_, _, _, _, _, hl1⟩ := switch_stage_fields net0 net1 hs
          rw [hl1]; exact List.filter_sublist _
        exact (ih net1 net'' hit).trans h1
  exact ⟨rfl, hlearn, hsub, fun p hp hp' => hp (hsub.mem hp'),
    fun k net'' hit => hiter k net net'' hit⟩

/-- Concrete network for the C10 witness. -/
def exC10net : SNetwork :=
  { cells := [⟨[CellOp.mixed [⟨true, [OpModule.conv [0, 1]]⟩]]⟩],
    nLayersQuantCompleted := 0,
    learnable_params := [0, 1, 2],
    requires_grad := fun _ => true }

def exC10net1 : SNetwork :=
  match switch_stage exC10net with
  | .ok n => n
  | .error _ => exC10net

theorem parameters_rebound_and_nonincreasing_witness :
    switch_stage exC10net = .ok exC10net1 ∧
    exC10net1.learnable_params.Sublist exC10net.learnable_params ∧
    (3 ∉ exC10net.learnable_params → 3 ∉ exC10net1.learnable_params) := by
  have h := parameters_rebound_and_nonincreasing exC10net exC10net1 rfl
  exact ⟨rfl, h.2.2.1, h.2.2.2.1 3⟩

/-- C9: `ActQuant.forward` either applies hard activation quantization —
exactly when `quant` is set and the module is not in training mode or
`quatize_during_training` is set — or applies plain ReLU; the noise branch
(`noise` set, training mode, `noise_during_training` set, quantization
condition not met) unconditionally fails its assertion, so a noisy
activation output is never produced by this forward. -/
theorem actquant_forward_trichotomy (m : ActQuant) (training : Bool) (x : ℚ) :
    (∀ y b, m.forward training x ≠ .ok (.noised y b)) ∧
    (m.forward training x = .ok (.quantized x m.bitwidth) ↔
      (m.quant = true ∧ (training = false ∨ m.quatize_during_training = true))) ∧
    (m.forward training x = .error () ↔
      (¬(m.quant = true ∧ (training = false ∨ m.quatize_during_training = true)) ∧
        m.noise = true ∧ training = true ∧ m.noise_during_training = true)) ∧
    (m.forward training x = .ok (.relu (max x 0)) ↔
      (¬(m.quant = true ∧ (training = false ∨ m.quatize_during_training = true)) ∧
       ¬(m.noise = true ∧ training = true ∧ m.noise_during_training = true))) := by
  rcases m with ⟨q, n, bw, qdt, ndt⟩
  cases q <;> cases n <;> cases training <;> cases qdt <;> cases ndt <;>
    simp [ActQuant.forward]

/-! ## `BaseNet` weight-training forward hooks (cnn/models/BaseNet.py) -/

/-- Modelled from the spec: candidate-operation state used by the hooks.
The op classes (`UNIQ/uniq.py`, `cnn/MixedFilter.py`) are not under `src/`;
per the spec's Candidate Operation contract the op exposes `quantizeFunc`
(replace float weights with their quantized representation, recoverable),
`restore_state` (revert to pre-quantization float weights, also stripping
noise) and `add_noise`, plus a `noise` configuration flag; the
`check_quantization(op.op[0].weight) <= 2 ** op.bitwidth[0]` bound of
BaseNet.py holds whenever the weights are in their quantized
representation. -/
structure HOp where
  noise : Bool
  quantizedWeights : Bool
  noised : Bool
deriving DecidableEq, Repr

/-- Modelled from the spec: in-place weight quantization of one op. -/
def HOp.quantizeFunc (op : HOp) : HOp :=
  { op with quantizedWeights := true }

/-- Modelled from the spec: revert to the pre-quantization float weights. -/
def HOp.restore_state (op : HOp) : HOp :=
  { op with quantizedWeights := false, noised := false }

/-- Modelled from the spec: inject noise into the op's weights. -/
def HOp.add_noise (op : HOp) : HOp :=
  { op with noised := true }

/-- Modelled from the spec: the `check_quantization ... <= 2 ** bitwidth`
bound checked by BaseNet.py after `quantizeFunc`. -/
def HOp.checkQuantizationOk (op : HOp) : Bool :=
  op.quantizedWeights

/-- Mixed layer state read by the hooks: the `quantized` and `added_noise`
flags and the `opsList`. -/
structure HLayer where
  quantized : Bool
  added_noise : Bool
  opsList : List HOp
deriving DecidableEq, Repr

/-- `BaseNet` state used by the pre/post-forward hooks: the single-flight
`hookFlag`, the `training` mode, the staging cursor and the layer list. -/
structure HookNet where
  hookFlag : Bool
  training : Bool
  nLayersQuantCompleted : Nat
  layersList : List HLayer
deriving DecidableEq, Repr

/-- `len(self.layersList)` (`BaseNet.nLayers`). -/
def HookNet.nLayers (net : HookNet) : Nat :=
  net.layersList.length

/-- Body of the staged-layer loop of `restoreQuantizationForStagedLayers`:
`assert (layer.quantized is True)`, then `op.quantizeFunc()` and
`assert (check_quantization ... <= 2 ** bitwidth)` for each op. -/
def quantizeOps : List HOp → Except String (List HOp)
  | [] => .ok []
  | op :: rest =>
    let op' := op.quantizeFunc
    if op'.checkQuantizationOk then (quantizeOps rest).map (op' :: ·)
    else .error "AssertionError"

def quantizeStagedLayer (l : HLayer) : Except String HLayer :=
  if l.quantized then (quantizeOps l.opsList).map ({ l with opsList := · })
  else .error "AssertionError"

/-- Body of the staged-layer loop of `removeQuantizationFromStagedLayers`:
`assert (layer.quantized is True)`, then `op.restore_state()` per op. -/
def unquantizeStagedLayer (l : HLayer) : Except String HLayer :=
  if l.quantized then .ok { l with opsList := l.opsList.map HOp.restore_state }
  else .error "AssertionError"

/-- `for layerIdx in range(n): layer = self.layersList[layerIdx]; ...` —
applies `f` to the first `n` layers in order; indexing past the end of the
list raises `IndexError`. -/
def stagedLoop (f : HLayer → Except String HLayer) :
    Nat → List HLayer → Except String (List HLayer)
  | 0, ls => .ok ls
  | _ + 1, [] => .error "IndexError"
  | n + 1, l :: ls =>
    match f l with
    | .error e => .error e
    | .ok l' =>
      match stagedLoop f n ls with
      | .error e => .error e
      | .ok ls' => .ok (l' :: ls')

/-- Noise-arming loop of `preForward`: `assert (op.noise is True)` then
`op.add_noise()` for every op of the active layer. -/
def addNoiseOps : List HOp → Except String (List HOp)
  | [] => .ok []
  | op :: rest =>
    if op.noise then (addNoiseOps rest).map (op.add_noise :: ·)
    else .error "AssertionError"

/-- Noise-stripping loop of `postForward`: `assert (op.noise is True)` then
`op.restore_state()` for every op of the active layer. -/
def removeNoiseOps : List HOp → Except String (List HOp)
  | [] => .ok []
  | op :: rest =>
    if op.noise then (removeNoiseOps rest).map (op.restore_state :: ·)
    else .error "AssertionError"

/-- Shared tail of both hooks: if the cursor has not reached the last
layer, check `layer.added_noise` on the active layer and run `g` over its
ops. -/
def activeLayerStep (g : List HOp → Except String (List HOp))
    (net : HookNet) : Except String HookNet :=
  if net.nLayersQuantCompleted < net.nLayers then
    match net.layersList.get? net.nLayersQuantCompleted with
    | none => .error "IndexError"
    | some layer =>
      if layer.added_noise then
        match g layer.opsList with
        | .error e => .error e
        | .ok ops' =>
          .ok { net with layersList :=
              net.layersList.set net.nLayersQuantCompleted { layer with opsList := ops' } }
      else .error "AssertionError"
  else .ok net

/-- `preForward` (cnn/models/BaseNet.py lines 23-37): single-flight check on
`hookFlag` (`assert (self.hookFlag is False)`, then set it), `assert
(self.training is True)`, restore quantization on the staged layers, then
arm noise on the next-to-be-staged layer.  Python flips `hookFlag` before
the `training` assert; since a raised assertion aborts the call, setting
it on the success path is equivalent in this `Except` model. -/
def preForward (net : HookNet) : Except String HookNet :=
  if net.hookFlag then .error "AssertionError"
  else if !net.training then .error "AssertionError"
  else
    match stagedLoop quantizeStagedLayer net.nLayersQuantCompleted net.layersList with
    | .error e => .error e
    | .ok ls => activeLayerStep addNoiseOps { net with hookFlag := true, layersList := ls }

/-- `postForward` (cnn/models/BaseNet.py lines 40-54): `hookFlag` must be
armed (`assert (self.hookFlag is True)`, then clear it), `assert
(self.training is True)`, remove quantization from the staged layers, then
strip noise from the next-to-be-staged layer.  As in `preForward`, the
flag clear is folded into the success path. -/
def postForward (net : HookNet) : Except String HookNet :=
  if !net.hookFlag then .error "AssertionError"
  else if !net.training then .error "AssertionError"
  else
    match stagedLoop unquantizeStagedLayer net.nLayersQuantCompleted net.layersList with
    | .error e => .error e
    | .ok ls => activeLayerStep removeNoiseOps { net with hookFlag := false, layersList := ls }

theorem activeLayerStep_hookFlag (g : List HOp → Except String (List HOp))
    (net net' : HookNet) (h : activeLayerStep g net = .ok net') :
    net'.hookFlag = net.hookFlag := by
  unfold activeLayerStep at h
  split at h
  · split at h
    · exact absurd h (by simp)
    · split at h
      · split at h
        · exact absurd h (by simp)
        · simp only [Except.ok.injEq] at h
          subst h
          rfl
      · exact absurd h (by simp)
  · simp only [Except.ok.injEq] at h
    subst h
    rfl

theorem preForward_ok_hookFlag (net net' : HookNet) (h : preForward net = .ok net') :
    net'.hookFlag = true ∧ net.hookFlag = false ∧ net.training = true := by
  unfold preForward at h
  split at h
  · exact absurd h (by simp)
  · rename_i hf
    split at h
    · exact absurd h (by simp)
    · rename_i ht
      split at h
      · exact absurd h (by simp)
      · have := activeLayerStep_hookFlag addNoiseOps _ _ h
        simp only [Bool.not_eq_true] at hf
        simp only [Bool.not_eq_true', Bool.not_eq_false] at ht
        exact ⟨this, hf, ht⟩

theorem postForward_ok_hookFlag (net net' : HookNet) (h : postForward net = .ok net') :
    net'.hookFlag = false ∧ net.hookFlag = true ∧ net.training = true := by
  unfold postForward at h
  split at h
  · exact absurd h (by simp)
  · rename_i hf
    split at h
    · exact absurd h (by simp)
    · rename_i ht
      split at h
      · exact absurd h (by simp)
      · have := activeLayerStep_hookFlag removeNoiseOps _ _ h
        simp only [Bool.not_eq_true, Bool.not_eq_false'] at hf
        simp only [Bool.not_eq_true', Bool.not_eq_false] at ht
        exact ⟨this, hf, ht⟩

/-- C3: the hooks enforce single-flight via `hookFlag`: invoking
`preForward` a second time without an intervening `postForward` fails an
assertion, invoking `postForward` without a preceding `preForward` (with
`hookFlag` still `False`) fails an assertion, a completed
`preForward`/`postForward` pair returns `hookFlag` to `False`, and
`preForward` completes only while the model is in training mode
(`self.training is True`). -/
theorem hook_single_flight (net net1 net2 : HookNet) :
    (preForward net = .ok net1 → preForward net1 = .error "AssertionError") ∧
    (net.hookFlag = false → postForward net = .error "AssertionError") ∧
    (preForward net = .ok net1 → postForward net1 = .ok net2 → net2.hookFlag = false) ∧
    (preForward net = .ok net1 → net.training = true) := by
  refine ⟨?_, ?_, ?_, ?_⟩
  · intro h
    have hflag := (preForward_ok_hookFlag net net1 h).1
    unfold preForward
    rw [hflag]
    rfl
  · intro hf
    unfold postForward
    rw [hf]
    rfl
  · intro _ hpost
    exact (postForward_ok_hookFlag net1 net2 hpost).1
  · intro h
    exact (preForward_ok_hookFlag net net1 h).2.2

/-- Concrete hook states for the C3 witness: idle and armed, no layers. -/
def hnetC3a : HookNet := ⟨false, true, 0, []⟩

def hnetC3b : HookNet := ⟨true, true, 0, []⟩

theorem hook_single_flight_witness :
    preForward hnetC3a = .ok hnetC3b ∧
    preForward hnetC3b = .error "AssertionError" ∧
    postForward hnetC3a = .error "AssertionError" ∧
    postForward hnetC3b = .ok hnetC3a ∧
    hnetC3a.hookFlag = false ∧
    hnetC3a.training = true := by
  have h := hook_single_flight hnetC3a hnetC3b hnetC3a
  exact ⟨rfl, h.1 rfl, h.2.1 rfl, rfl, h.2.2.1 rfl rfl, h.2.2.2 rfl⟩

/-! ## Discrete bops accounting (cnn/models/BaseNet.py lines 57-79) -/

/-- Mixed layer as the discrete bops counter sees it: `getBops` (its value
is computed inside cnn/MixedLayer.py, outside `src/`, so it is kept as an
opaque-to-the-proof function of the input bit-width vector) and
`getCurrentOutputBitwidth()`. -/
structure BLayer where
  getBops : List Nat → ℚ
  getCurrentOutputBitwidth : List Nat

/-- `BaseNet.modelInputBitwidth = 8`. -/
def modelInputBitwidth : Nat := 8

/-- `BaseNet.modelInputnFeatureMaps = 3`. -/
def modelInputnFeatureMaps : Nat := 3

/-- Loop of `BaseNet.countBopsDiscrete`: add each layer's bops for the
current input bit-width vector, then replace that vector with the layer's
current output bit-width. -/
def countBopsLoop : List BLayer → List Nat → ℚ → ℚ
  | [], _, totalBops => totalBops
  | layer :: rest, input_bitwidth, totalBops =>
    countBopsLoop rest layer.getCurrentOutputBitwidth (totalBops + layer.getBops input_bitwidth)

/-- `BaseNet.countBopsDiscrete` (cnn/models/BaseNet.py lines 63-73):
accumulate over the layer list starting from the model input bit-width
vector (`[8, 8, 8]`), then divide by `1E9`. -/
def countBopsDiscrete (layers : List BLayer) : ℚ :=
  countBopsLoop layers (List.replicate modelInputnFeatureMaps modelInputBitwidth) 0 / 1000000000

/-- Default layer for out-of-range `getD` lookups in index-based
statements. -/
def defaultBLayer : BLayer := ⟨fun _ => 0, []⟩

/-- Input bit-width vector reaching layer `i` when the first layer
receives `bw`: `bw` for `i = 0`, else layer `i-1`'s output bit-width. -/
def bitwidthFrom (layers : List BLayer) (bw : List Nat) : Nat → List Nat
  | 0 => bw
  | i + 1 => (layers.getD i defaultBLayer).getCurrentOutputBitwidth

theorem bitwidthFrom_cons (l : BLayer) (ls : List BLayer) (bw : List Nat) (i : Nat) :
    bitwidthFrom (l :: ls) bw (i + 1) = bitwidthFrom ls l.getCurrentOutputBitwidth i := by
  cases i with
  | zero => rfl
  | succ j => rfl

theorem countBopsLoop_eq_sum (layers : List BLayer) : ∀ (bw : List Nat) (acc : ℚ),
    countBopsLoop layers bw acc =
      acc + ∑ i ∈ Finset.range layers.length,
        (layers.getD i defaultBLayer).getBops (bitwidthFrom layers bw i) := by
  induction layers with
  | nil => intro bw acc; simp [countBopsLoop]
  | cons l ls ih =>
    intro bw acc
    rw [countBopsLoop, ih]
    rw [List.length_cons, Finset.sum_range_succ']
    simp only [bitwidthFrom_cons]
    have hsucc : ∀ i, ((l :: ls).getD (i + 1) defaultBLayer) = ls.getD i defaultBLayer :=
      fun i => rfl
    have h0 : ((l :: ls).getD 0 defaultBLayer) = l := rfl
    simp only [hsucc, h0]
    have hbw0 : bitwidthFrom (l :: ls) bw 0 = bw := rfl
    rw [hbw0]
    ring

/-- C4: `countBopsDiscrete` is a single strict left-to-right pass visiting
each layer exactly once: layer `i` contributes `getBops` applied to the
bit-width vector propagated to it (the model input vector `[8, 8, 8]` for
layer 0, the output bit-width of layer `i-1` afterwards), and the result
is the sum of all contributions divided by `1E9`. -/
theorem countBopsDiscrete_eq_sum (layers : List BLayer) :
    countBopsDiscrete layers =
      (∑ i ∈ Finset.range layers.length,
        (layers.getD i defaultBLayer).getBops
          (bitwidthFrom layers (List.replicate modelInputnFeatureMaps modelInputBitwidth) i))
        / 1000000000 := by
  unfold countBopsDiscrete
  rw [countBopsLoop_eq_sum]
  rw [zero_add]

/-! ## Mixed operation and search-network forward (cnn/model_search.py) -/

/-- `MixedOp.forward` (cnn/model_search.py lines 21-22):
`sum(w * op(x) for w, op in zip(weights, self._ops))` over an abstract
tensor type with addition and rational scaling. -/
def mixedOpForward {T : Type} [AddCommMonoid T] [SMul ℚ T]
    (ops : List (T → T)) (x : T) (weights : List ℚ) : T :=
  ((weights.zip ops).map fun wo => wo.1 • wo.2 x).sum

/-- Search cell as `Network.forward` uses it: its `reduction` flag and its
forward function `run s0 s1 weights` (the cell internals are exercised by
`Cell.forward`, not by the C6 weight-selection claim). -/
structure NCell (T : Type) where
  reduction : Bool
  run : T → T → List ℚ → T

/-- Search network as `Network.forward` uses it. -/
structure SearchNet (T A : Type) where
  stem : T → T
  cells : List (NCell T)
  alphas_normal : A
  alphas_reduce : A
  global_pooling : T → T
  classifier : T → T

/-- `Network.forward` (cnn/model_search.py lines 115-125):
`s0 = s1 = stem(input)`; thread `(s0, s1)` through the cells, choosing
`softmax(alphas_reduce)` for a reduction cell and `softmax(alphas_normal)`
otherwise; finish with global pooling and the classifier.  `F.softmax` is
a torch library function, kept abstract as the parameter `sm`. -/
def networkForward {T A : Type} (sm : A → List ℚ) (net : SearchNet T A) (input : T) : T :=
  let s := net.stem input
  let ss := net.cells.foldl
    (fun (p : T × T) cell =>
      (p.2, cell.run p.1 p.2 (if cell.reduction then sm net.alphas_reduce else sm net.alphas_normal)))
    (s, s)
  net.classifier (net.global_pooling ss.2)

/-- Refinement target for C6, following the spec's words: the same cell
threading, but driven by an explicit per-cell weight list. -/
def networkForwardWithWeights {T : Type} (stem : T → T) (cells : List (NCell T))
    (pool classifier : T → T) (ws : List (List ℚ)) (input : T) : T :=
  let s := stem input
  let ss := (cells.zip ws).foldl (fun (p : T × T) cw => (p.2, cw.1.run p.1 p.2 cw.2)) (s, s)
  classifier (pool ss.2)

theorem zip_map_foldl {T : Type} (cells : List (NCell T)) (f : NCell T → List ℚ) :
    ∀ init : T × T,
      cells.foldl (fun (p : T × T) cell => (p.2, cell.run p.1 p.2 (f cell))) init =
      (cells.zip (cells.map f)).foldl (fun (p : T × T) cw => (p.2, cw.1.run p.1 p.2 cw.2)) init := by
  induction cells with
  | nil => intro init; rfl
  | cons c cs ih => intro init; exact ih _

theorem mixedOpForward_eq_sum {T : Type} [AddCommMonoid T] [SMul ℚ T] (x : T) :
    ∀ (ops : List (T → T)) (weights : List ℚ), weights.length = ops.length →
      mixedOpForward ops x weights =
        ∑ i ∈ Finset.range ops.length, weights.getD i 0 • (ops.getD i id) x := by
  intro ops
  induction ops with
  | nil =>
    intro weights hlen
    rw [List.length_eq_zero.mp hlen]
    rfl
  | cons op rest ih =>
    intro weights hlen
    cases weights with
    | nil => exact absurd hlen (by simp)
    | cons w ws =>
      simp only [List.length_cons] at hlen
      rw [List.length_cons, Finset.sum_range_succ']
      have step : mixedOpForward (op :: rest) x (w :: ws) = w • op x + mixedOpForward rest x ws := by
        unfold mixedOpForward
        rfl
      rw [step, ih ws (by omega)]
      have hsucc : ∀ i, ((w :: ws).getD (i + 1) 0) • (((op :: rest).getD (i + 1) id) x) =
          (ws.getD i 0) • ((rest.getD i id) x) := fun i => rfl
      simp only [hsucc]
      have h0 : ((w :: ws).getD 0 0) • (((op :: rest).getD 0 id) x) = w • op x := rfl
      rw [h0]
      exact (add_comm _ _)

/-- C6: a mixed operation set's forward is the sum, in insertion order, over
all candidate operations of `softmax(alpha)_i * op_i(x)` — when the weight
vector matches the candidate count (as the softmaxed alpha rows do), every
candidate contributes exactly the `i`-th summand, none skipped; and
`Network.forward` threads `(s0, s1)` through the cells with exactly the
weight list that picks `softmax(alphas_reduce)` for reduction cells and
`softmax(alphas_normal)` for all others. -/
theorem mixed_and_network_forward {T A : Type} [AddCommMonoid T] [SMul ℚ T]
    (ops : List (T → T)) (x : T) (weights : List ℚ)
    (sm : A → List ℚ) (net : SearchNet T A) (input : T) :
    (weights.length = ops.length →
      mixedOpForward ops x weights =
        ∑ i ∈ Finset.range ops.length, weights.getD i 0 • (ops.getD i id) x) ∧
    networkForward sm net input =
      networkForwardWithWeights net.stem net.cells net.global_pooling net.classifier
        (net.cells.map fun cell =>
          if cell.reduction then sm net.alphas_reduce else sm net.alphas_normal)
        input := by
  constructor
  · exact mixedOpForward_eq_sum x ops weights
  · simp only [networkForward, networkForwardWithWeights]
    rw [zip_map_foldl net.cells
      (fun cell => if cell.reduction then sm net.alphas_reduce else sm net.alphas_normal)
      (net.stem input, net.stem input)]

/-- Concrete two-cell network for the C6 witness (`T = A = ℚ`-based). -/
def exC6net : SearchNet ℚ (List ℚ) :=
  { stem := fun x => x + 1,
    cells := [⟨false, fun a b w => a + b + w.sum⟩, ⟨true, fun a b w => a * b + w.sum⟩],
    alphas_normal := [1, 2],
    alphas_reduce := [3],
    global_pooling := fun x => 2 * x,
    classifier := fun x => x - 1 }

theorem mixed_and_network_forward_witness :
    ([(2 : ℚ), 5] : List ℚ).length = ([fun x => x + 1, fun _ => 2] : List (ℚ → ℚ)).length ∧
    mixedOpForward [fun x => x + 1, fun _ => 2] (3 : ℚ) [2, 5] =
      ∑ i ∈ Finset.range 2,
        (([(2 : ℚ), 5] : List ℚ).getD i 0) •
          (([fun x => x + 1, fun _ => 2] : List (ℚ → ℚ)).getD i id) 3 ∧
    networkForward id exC6net 7 =
      networkForwardWithWeights exC6net.stem exC6net.cells exC6net.global_pooling
        exC6net.classifier
        (exC6net.cells.map fun cell =>
          if cell.reduction then id exC6net.alphas_reduce else id exC6net.alphas_normal)
        7 := by
  have h := mixed_and_network_forward [fun x => x + 1, fun _ => (2 : ℚ)] (3 : ℚ) [2, 5]
    id exC6net (7 : ℚ)
  exact ⟨rfl, h.1 rfl, h.2⟩

/-! ## Checkpoint statistics update (cnn/models/BaseNet.py lines 220-240) -/

/-- Checkpoint as `updateCheckpointStatistics` uses it: the
`updated_statistics` key (absent or a boolean) and the `state_dict`,
abstracted to an id. -/
structure Checkpoint where
  updated_statistics : Option Bool
  state_dict : Nat
deriving DecidableEq, Repr

/-- Model state for the statistics update: the staging cursor, the layer
count (`nLayers()`), and the remaining mutable state (weights, per-op
statistics buffers) abstracted to an id. -/
structure StatModel where
  nLayersQuantCompleted : Nat
  nLayersVal : Nat
  rest : Nat
deriving DecidableEq, Repr

/-- `BaseNet.updateCheckpointStatistics` (cnn/models/BaseNet.py lines
220-240).  The collaborators called from its body — `quantizeUnstagedLayers`
(which reads but never assigns the cursor), `load_state_dict`,
`calcStatistics` and `state_dict` — act on layer/op state held in classes
outside `src/`, so they are abstract parameters acting on the abstracted
`rest` state; `saveModel(checkpoint, path)` is recorded in the returned
list of performed saves.  Returns `needToUpdate` exactly as the source
does: `('updated_statistics' not in checkpoint) or
(checkpoint['updated_statistics'] is not True)`. -/
def updateCheckpointStatistics
    (quantizeEff loadEff : Nat → Nat → Nat) (calcStatsEff getStateDict : Nat → Nat)
    (m : StatModel) (checkpoint : Checkpoint) (path : String) :
    Bool × StatModel × Checkpoint × List (String × Checkpoint) :=
  if checkpoint.updated_statistics = some true then
    (false, m, checkpoint, [])
  else
    let m1 : StatModel := { m with rest := quantizeEff m.nLayersQuantCompleted m.rest }
    let nLayersQuantCompletedOrg := m1.nLayersQuantCompleted
    let m2 : StatModel := { m1 with nLayersQuantCompleted := m1.nLayersVal }
    let m3 : StatModel := { m2 with rest := loadEff checkpoint.state_dict m2.rest }
    let m4 : StatModel := { m3 with rest := calcStatsEff m3.rest }
    let ck1 : Checkpoint := { state_dict := getStateDict m4.rest, updated_statistics := some true }
    let m5 : StatModel := { m4 with nLayersQuantCompleted := nLayersQuantCompletedOrg }
    (true, m5, ck1, [(path, ck1)])

/-- C8: `updateCheckpointStatistics` recomputes and saves statistics only
when `checkpoint['updated_statistics']` is absent or not `True` (then it
returns `True`, the saved checkpoint carries the flag set, and the model's
`nLayersQuantCompleted` is restored to its pre-call value); when the flag
is already `True` it returns `False` and leaves the model, the checkpoint
and the file system untouched — so a second call after a successful first
call is a no-op. -/
theorem updateCheckpointStatistics_once (qe le : Nat → Nat → Nat) (ce gs : Nat → Nat)
    (m : StatModel) (ck : Checkpoint) (path : String) :
    (ck.updated_statistics = some true →
      updateCheckpointStatistics qe le ce gs m ck path = (false, m, ck, [])) ∧
    (ck.updated_statistics ≠ some true →
      (updateCheckpointStatistics qe le ce gs m ck path).1 = true ∧
      (updateCheckpointStatistics qe le ce gs m ck path).2.2.1.updated_statistics = some true ∧
      (updateCheckpointStatistics qe le ce gs m ck path).2.1.nLayersQuantCompleted =
        m.nLayersQuantCompleted ∧
      (updateCheckpointStatistics qe le ce gs m ck path).2.2.2 =
        [(path, (updateCheckpointStatistics qe le ce gs m ck path).2.2.1)]) ∧
    (∀ b m1 ck1 saves,
      updateCheckpointStatistics qe le ce gs m ck path = (b, m1, ck1, saves) → b = true →
      updateCheckpointStatistics qe le ce gs m1 ck1 path = (false, m1, ck1, [])) := by
  refine ⟨?_, ?_, ?_⟩
  · intro hflag
    unfold updateCheckpointStatistics
    rw [if_pos hflag]
  · intro hflag
    unfold updateCheckpointStatistics
    rw [if_neg hflag]
    exact ⟨rfl, rfl, rfl, rfl⟩
  · intro b m1 ck1 saves heq hb
    subst hb
    unfold updateCheckpointStatistics at heq
    by_cases hflag : ck.updated_statistics = some true
    · rw [if_pos hflag] at heq
      exact absurd (congrArg Prod.fst heq).symm (by simp)
    · rw [if_neg hflag] at heq
      have hck1 : ck1.updated_statistics = some true := by
        have := congrArg (fun t => t.2.2.1.updated_statistics) heq
        simpa using this.symm
      unfold updateCheckpointStatistics
      rw [if_pos hck1]

/-- Concrete inputs for the C8 witness. -/
def exC8m : StatModel := ⟨1, 3, 0⟩

def exC8ck : Checkpoint := ⟨none, 42⟩

def exC8qe : Nat → Nat → Nat := fun _ r => r + 1

def exC8le : Nat → Nat → Nat := fun sd r => sd + r

def exC8ce : Nat → Nat := fun r => 2 * r

def exC8gs : Nat → Nat := fun r => r

theorem updateCheckpointStatistics_once_witness :
    exC8ck.updated_statistics ≠ some true ∧
    (updateCheckpointStatistics exC8qe exC8le exC8ce exC8gs exC8m exC8ck "opt").1 = true ∧
    (updateCheckpointStatistics exC8qe exC8le exC8ce exC8gs
        exC8m exC8ck "opt").2.1.nLayersQuantCompleted = exC8m.nLayersQuantCompleted ∧
    updateCheckpointStatistics exC8qe exC8le exC8ce exC8gs
        (updateCheckpointStatistics exC8qe exC8le exC8ce exC8gs exC8m exC8ck "opt").2.1
        (updateCheckpointStatistics exC8qe exC8le exC8ce exC8gs exC8m exC8ck "opt").2.2.1 "opt" =
      (false,
        (updateCheckpointStatistics exC8qe exC8le exC8ce exC8gs exC8m exC8ck "opt").2.1,
        (updateCheckpointStatistics exC8qe exC8le exC8ce exC8gs exC8m exC8ck "opt").2.2.1,
        []) := by
  have h := updateCheckpointStatistics_once exC8qe exC8le exC8ce exC8gs exC8m exC8ck "opt"
  refine ⟨by decide, (h.2.1 (by decide)).1, (h.2.1 (by decide)).2.2.1, ?_⟩
  exact h.2.2 _ _ _ _ rfl (h.2.1 (by decide)).1

/-! ## Pre-trained checkpoint loading (cnn/models/BaseNet.py lines 251-302) -/

/-- Checkpoint as `loadPreTrained` reads it: the `updated_statistics` key
(absent or boolean), the `state_dict` keys, and `best_prec1` (only
logged). -/
structure LoadCheckpoint where
  updated_statistics : Option Bool
  state_dict_keys : List String
  best_prec1 : ℚ
deriving DecidableEq, Repr

/-- Rows `loadPreTrained` appends to `loggerRows` (contents abstracted to
tags). -/
inductive LogRow
  | pathInfo
  | validationAccuracy
  | updatedStats
  | includesStats (b : Bool)
  | failFit
  | failPath
deriving DecidableEq, Repr

/-- Collaborators of `loadPreTrained`: `os.path.exists`, `torch.load`, the
model's own `state_dict().keys()`, and the two abstract subclass
key-remapping strategies (their implementations are outside `src/`); for
these, `true` models any Python return value other than `False` (the
`loadSuccess is not False` test). -/
structure LoadEnv where
  pathExists : String → Bool
  loadModel : String → LoadCheckpoint
  modelStateDictKeys : List String
  loadUNIQPreTrained : List String → Bool
  loadSingleOpPreTrained : List String → Bool

/-- Emptiness of the symmetric difference of the model's and the
checkpoint's state-dict key sets. -/
def stateDictKeysMatch (modelKeys chkKeys : List String) : Bool :=
  modelKeys.all (chkKeys.contains ·) && chkKeys.all (modelKeys.contains ·)

/-- `BaseNet.loadPreTrained` (cnn/models/BaseNet.py lines 251-302),
returning `(loadOpsWithDifferentWeights, loggerRows)`; a raised exception
is an `Except.error`.  Directly mirrored control flow: `None` path — do
nothing; missing path — log-and-return; existing path — load, assert
`updated_statistics is True` (`KeyError` if the key is absent), compute
the key symmetric difference, `assert (False)` when it is empty, else try
`loadUNIQPreTrained` then `loadSingleOpPreTrained`.  The model-state side
effects of a successful load (including `__updateStatistics`) are not
observable in the returned value and are omitted. -/
def loadPreTrained (env : LoadEnv) (path : Option String) :
    Except String (Bool × List LogRow) :=
  match path with
  | none => .ok (false, [])
  | some p =>
    if env.pathExists p then
      match (env.loadModel p).updated_statistics with
      | none => .error "KeyError"
      | some u =>
        if u = true then
          if stateDictKeysMatch env.modelStateDictKeys (env.loadModel p).state_dict_keys then
            .error "AssertionError"
          else
            let chk := (env.loadModel p).state_dict_keys
            let loadSuccess :=
              if env.loadUNIQPreTrained chk then true else env.loadSingleOpPreTrained chk
            if loadSuccess then
              .ok (false, [LogRow.pathInfo, LogRow.validationAccuracy, LogRow.updatedStats,
                LogRow.includesStats (chk.any (String.endsWith · ".layer_basis"))])
            else
              .ok (false, [LogRow.failFit])
        else .error "AssertionError"
    else .ok (false, [LogRow.failPath])

/-- C7 (amended): `loadPreTrained` never raises when the path is `None`,
when the path does not exist, or when neither key-remapping strategy
succeeds — each of these reports failure through the returned boolean
(always `False` on a normal return) plus a log row for the two non-`None`
cases; when the checkpoint's keys differ from the model's it tries
`loadUNIQPreTrained` and then `loadSingleOpPreTrained` and the first
strategy not returning `False` wins; but when the keys match exactly the
direct-load branch is guarded by `assert (False)` and the call raises
`AssertionError` instead of loading the state dict. -/
theorem loadPreTrained_behaviour (env : LoadEnv) (p : String) :
    (loadPreTrained env none = .ok (false, [])) ∧
    (env.pathExists p = false →
      loadPreTrained env (some p) = .ok (false, [LogRow.failPath])) ∧
    (env.pathExists p = true →
      (env.loadModel p).updated_statistics = some true →
      stateDictKeysMatch env.modelStateDictKeys (env.loadModel p).state_dict_keys = false →
      (env.loadUNIQPreTrained (env.loadModel p).state_dict_keys = false →
        env.loadSingleOpPreTrained (env.loadModel p).state_dict_keys = false →
        loadPreTrained env (some p) = .ok (false, [LogRow.failFit])) ∧
      (env.loadUNIQPreTrained (env.loadModel p).state_dict_keys = true →
        loadPreTrained env (some p) = .ok (false,
          [LogRow.pathInfo, LogRow.validationAccuracy, LogRow.updatedStats,
           LogRow.includesStats
             ((env.loadModel p).state_dict_keys.any (String.endsWith · ".layer_basis"))])) ∧
      (env.loadUNIQPreTrained (env.loadModel p).state_dict_keys = false →
        env.loadSingleOpPreTrained (env.loadModel p).state_dict_keys = true →
        loadPreTrained env (some p) = .ok (false,
          [LogRow.pathInfo, LogRow.validationAccuracy, LogRow.updatedStats,
           LogRow.includesStats
             ((env.loadModel p).state_dict_keys.any (String.endsWith · ".layer_basis"))]))) ∧
    (env.pathExists p = true →
      (env.loadModel p).updated_statistics = some true →
      stateDictKeysMatch env.modelStateDictKeys (env.loadModel p).state_dict_keys = true →
      loadPreTrained env (some p) = .error "AssertionError") := by
  refine ⟨rfl, ?_, ?_, ?_⟩
  · intro hex
    simp [loadPreTrained, hex]
  · intro hex hu hmatch
    refine ⟨?_, ?_, ?_⟩
    · intro h1 h2
      simp [loadPreTrained, hex, hu, hmatch, h1, h2]
    · intro h1
      simp [loadPreTrained, hex, hu, hmatch, h1]
    · intro h1 h2
      simp [loadPreTrained, hex, hu, hmatch, h1, h2]
  · intro hex hu hmatch
    simp [loadPreTrained, hex, hu, hmatch]

/-- Concrete environment for the C7 witness: one existing path `"ckpt"`,
checkpoint keys differing from the model's, both remap strategies
failing. -/
def exC7env : LoadEnv :=
  { pathExists := (· == "ckpt"),
    loadModel := fun _ => ⟨some true, ["w1", "w2"], 0⟩,
    modelStateDictKeys := ["w1", "w3"],
    loadUNIQPreTrained := fun _ => false,
    loadSingleOpPreTrained := fun _ => false }

/-- Concrete environment whose checkpoint keys match the model's exactly. -/
def exC7env2 : LoadEnv :=
  { pathExists := (· == "ckpt"),
    loadModel := fun _ => ⟨some true, ["w1", "w2"], 0⟩,
    modelStateDictKeys := ["w1", "w2"],
    loadUNIQPreTrained := fun _ => false,
    loadSingleOpPreTrained := fun _ => false }

/-- Like `exC7env`, but the first remap strategy (`loadUNIQPreTrained`)
succeeds. -/
def exC7env3 : LoadEnv :=
  { pathExists := (· == "ckpt"),
    loadModel := fun _ => ⟨some true, ["w1", "w2"], 0⟩,
    modelStateDictKeys := ["w1", "w3"],
    loadUNIQPreTrained := fun _ => true,
    loadSingleOpPreTrained := fun _ => false }

/-- Like `exC7env`, but only the second remap strategy
(`loadSingleOpPreTrained`) succeeds: the fallback wins. -/
def exC7env4 : LoadEnv :=
  { pathExists := (· == "ckpt"),
    loadModel := fun _ => ⟨some true, ["w1", "w2"], 0⟩,
    modelStateDictKeys := ["w1", "w3"],
    loadUNIQPreTrained := fun _ => false,
    loadSingleOpPreTrained := fun _ => true }

theorem loadPreTrained_behaviour_witness :
    loadPreTrained exC7env none = .ok (false, []) ∧
    loadPreTrained exC7env (some "missing") = .ok (false, [LogRow.failPath]) ∧
    loadPreTrained exC7env (some "ckpt") = .ok (false, [LogRow.failFit]) ∧
    loadPreTrained exC7env3 (some "ckpt") = .ok (false,
      [LogRow.pathInfo, LogRow.validationAccuracy, LogRow.updatedStats,
       LogRow.includesStats false]) ∧
    loadPreTrained exC7env4 (some "ckpt") = .ok (false,
      [LogRow.pathInfo, LogRow.validationAccuracy, LogRow.updatedStats,
       LogRow.includesStats false]) ∧
    loadPreTrained exC7env2 (some "ckpt") = .error "AssertionError" := by
  have h1 := loadPreTrained_behaviour exC7env "missing"
  have h2 := loadPreTrained_behaviour exC7env "ckpt"
  have h3 := loadPreTrained_behaviour exC7env3 "ckpt"
  have h4 := loadPreTrained_behaviour exC7env4 "ckpt"
  have h5 := loadPreTrained_behaviour exC7env2 "ckpt"
  exact ⟨h1.1, h1.2.1 (by decide), (h2.2.2.1 (by decide) rfl (by decide)).1 rfl rfl,
    (h3.2.2.1 (by decide) rfl (by decide)).2.1 rfl,
    (h4.2.2.1 (by decide) rfl (by decide)).2.2 rfl rfl,
    h5.2.2.2 (by decide) rfl (by decide)⟩

/-- C7 counterexample: with an existing checkpoint whose state-dict keys
match the model's exactly (empty symmetric difference), `loadPreTrained`
raises `AssertionError` — the direct-load branch sits behind
`assert (False)` — instead of loading the state dict directly and
returning normally as the claim states. -/
theorem loadPreTrained_exact_match_raises :
    exC7env2.pathExists "ckpt" = true ∧
    stateDictKeysMatch exC7env2.modelStateDictKeys
      (exC7env2.loadModel "ckpt").state_dict_keys = true ∧
    loadPreTrained exC7env2 (some "ckpt") = .error "AssertionError" :=
  ⟨rfl, rfl, rfl⟩

/-! ## Baseline bops (cnn/models/BaseNet.py lines 418-461) -/

/-- Bitwidth as `getAllBitwidths` returns it: `(weight bits, activation
bits or None)`; `applyOnBaseline`'s fallback looks up the modified
bitwidth `(bitwidth[0], None)`. -/
abbrev Bitwidth := Nat × Option Nat

/-- Mixed layer as `applyOnBaseline` sees it: the per-filter selection
indices (`filter.curr_alpha_idx` over `layer.filters`), whether
`layer.filters[0]` is a `MixedConvWithReLU`, and the layer's bitwidth list
(`layer.getAllBitwidths()` — constant: filter-index changes never alter
it). -/
structure MLayer where
  filtersIdx : List Nat
  mixedConvWithReLU : Bool
  bitwidths : List Bitwidth
deriving DecidableEq, Repr

/-- Inner perturbation of `applyOnBaseline` for one layer: find the target
bitwidth in the layer's bitwidth list, falling back to
`(bitwidth[0], None)` for plain MixedConv layers — `list.index` raises
`ValueError` when neither is present — and set every filter's
`curr_alpha_idx` to the found index. -/
def setLayerToBitwidth (bitwidth : Bitwidth) (layer : MLayer) : Except String MLayer :=
  if bitwidth ∈ layer.bitwidths then
    match layer.bitwidths.indexOf? bitwidth with
    | some idx => .ok { layer with filtersIdx := layer.filtersIdx.map fun _ => idx }
    | none => .error "ValueError"
  else
    match layer.bitwidths.indexOf? (bitwidth.1, none) with
    | some idx => .ok { layer with filtersIdx := layer.filtersIdx.map fun _ => idx }
    | none => .error "ValueError"

/-- The `for layer2 in self.layersList` perturbation loop: force every
layer to the target bitwidth. -/
def setAllLayers (bitwidth : Bitwidth) : List MLayer → Except String (List MLayer)
  | [] => .ok []
  | layer :: rest =>
    match setLayerToBitwidth bitwidth layer with
    | .error e => .error e
    | .ok layer' =>
      match setAllLayers bitwidth rest with
      | .error e => .error e
      | .ok rest' => .ok (layer' :: rest')

/-- Loop over one `MixedConvWithReLU` layer's bitwidth list: for each
bitwidth not yet a key of `baselineBops`, perturb every layer to it and
append `func`'s value on the perturbed state — one `func` evaluation per
appended entry. -/
def baselineBitwidthLoop (func : List MLayer → ℚ) :
    List Bitwidth → List MLayer → List (Bitwidth × ℚ) →
    Except String (List MLayer × List (Bitwidth × ℚ))
  | [], st, acc => .ok (st, acc)
  | bw :: rest, st, acc =>
    if bw ∈ acc.map Prod.fst then baselineBitwidthLoop func rest st acc
    else
      match setAllLayers bw st with
      | .error e => .error e
      | .ok st' => baselineBitwidthLoop func rest st' (acc ++ [(bw, func st')])

/-- Outer loop of `applyOnBaseline` over the layers, skipping layers whose
first filter is not a `MixedConvWithReLU`. -/
def baselineLayerLoop (func : List MLayer → ℚ) :
    List (Bool × List Bitwidth) → List MLayer → List (Bitwidth × ℚ) →
    Except String (List MLayer × List (Bitwidth × ℚ))
  | [], st, acc => .ok (st, acc)
  | d :: rest, st, acc =>
    if d.1 then
      match baselineBitwidthLoop func d.2 st acc with
      | .error e => .error e
      | .ok (st', acc') => baselineLayerLoop func rest st' acc'
    else baselineLayerLoop func rest st acc

/-- `BaseNet.applyOnBaseline` (cnn/models/BaseNet.py lines 421-457).  The
outer loop reads each layer's filter class and `getAllBitwidths()`; both
are untouched by the filter-index perturbation, so they are read off the
argument state up front.  After the loops, every filter's
`curr_alpha_idx` is restored from the saved `modelFiltersIdx`
(elementwise, via `zip` as in the source). -/
def applyOnBaseline (func : List MLayer → ℚ) (layersList : List MLayer) :
    Except String (List MLayer × List (Bitwidth × ℚ)) :=
  let modelFiltersIdx := layersList.map MLayer.filtersIdx
  match baselineLayerLoop func (layersList.map fun l => (l.mixedConvWithReLU, l.bitwidths))
      layersList [] with
  | .error e => .error e
  | .ok (st, baselineBops) =>
    .ok (List.zipWith
        (fun layer saved =>
          { layer with filtersIdx := List.zipWith (fun _ i => i) layer.filtersIdx saved })
        st modelFiltersIdx,
      baselineBops)

/-- `BaseNet.calcBaselineBops` (cnn/models/BaseNet.py lines 460-461):
`applyOnBaseline(self.countBops)`. -/
def calcBaselineBops (countBops : List MLayer → ℚ) (layersList : List MLayer) :
    Except String (List MLayer × List (Bitwidth × ℚ)) :=
  applyOnBaseline countBops layersList

/-- Skeleton of a layer: everything except the filter selection indices,
plus the filter count. -/
def MLayer.sig (l : MLayer) : Bool × List Bitwidth × Nat :=
  (l.mixedConvWithReLU, l.bitwidths, l.filtersIdx.length)

theorem setLayerToBitwidth_sig (bw : Bitwidth) (l l' : MLayer)
    (h : setLayerToBitwidth bw l = .ok l') : l'.sig = l.sig := by
  unfold setLayerToBitwidth at h
  split at h <;> split at h <;>
    first
      | (simp only [Except.ok.injEq] at h; subst h; simp [MLayer.sig])
      | exact absurd h (by simp)

theorem setAllLayers_sig (bw : Bitwidth) :
    ∀ st st', setAllLayers bw st = .ok st' →
      st'.map MLayer.sig = st.map MLayer.sig := by
  intro st
  induction st with
  | nil =>
    intro st' h
    simp only [setAllLayers, Except.ok.injEq] at h
    subst h
    rfl
  | cons l rest ih =>
    intro st' h
    cases hs : setLayerToBitwidth bw l with
    | error e => simp [setAllLayers, hs] at h
    | ok l2 =>
      cases hr : setAllLayers bw rest with
      | error e => simp [setAllLayers, hs, hr] at h
      | ok rest2 =>
        simp only [setAllLayers, hs, hr, Except.ok.injEq] at h
        subst h
        simp only [List.map_cons]
        rw [setLayerToBitwidth_sig bw l l2 hs, ih rest2 hr]

theorem baselineBitwidthLoop_spec (func : List MLayer → ℚ) :
    ∀ (bws : List Bitwidth) (st : List MLayer) (acc : List (Bitwidth × ℚ))
      (st' : List MLayer) (acc' : List (Bitwidth × ℚ)),
      baselineBitwidthLoop func bws st acc = .ok (st', acc') →
      st'.map MLayer.sig = st.map MLayer.sig ∧
      ((acc.map Prod.fst).Nodup → (acc'.map Prod.fst).Nodup) ∧
      (∀ q ∈ acc', q ∈ acc ∨ q.1 ∈ bws) := by
  intro bws
  induction bws with
  | nil =>
    intro st acc st' acc' h
    simp only [baselineBitwidthLoop, Except.ok.injEq, Prod.mk.injEq] at h
    obtain ⟨h1, h2⟩ := h
    subst h1
    subst h2
    exact ⟨rfl, fun hn => hn, fun q hq => Or.inl hq⟩
  | cons bw rest ih =>
    intro st acc st' acc' h
    by_cases hmem : bw ∈ acc.map Prod.fst
    · rw [baselineBitwidthLoop, if_pos hmem] at h
      obtain ⟨hsig, hnd, hq⟩ := ih st acc st' acc' h
      exact ⟨hsig, hnd, fun q hqm =>
        (hq q hqm).elim Or.inl (fun hb => Or.inr (List.mem_cons_of_mem _ hb))⟩
    · rw [baselineBitwidthLoop, if_neg hmem] at h
      cases hs : setAllLayers bw st with
      | error e => simp [hs] at h
      | ok st2 =>
        simp only [hs] at h
        obtain ⟨hsig, hnd, hq⟩ := ih st2 (acc ++ [(bw, func st2)]) st' acc' h
        refine ⟨hsig.trans (setAllLayers_sig bw st st2 hs), ?_, ?_⟩
        · intro hndacc
          apply hnd
          simp only [List.map_append, List.map_cons, List.map_nil]
          rw [List.nodup_append]
          exact ⟨hndacc, List.nodup_singleton _, by
            intro a ha hb
            simp only [List.mem_singleton] at hb
            subst hb
            exact hmem ha⟩
        · intro q hqm
          rcases hq q hqm with hin | hb
          · rcases List.mem_append.mp hin with h1 | h2
            · exact Or.inl h1
            · simp only [List.mem_singleton] at h2
              subst h2
              exact Or.inr (List.mem_cons_self _ _)
          · exact Or.inr (List.mem_cons_of_mem _ hb)

theorem baselineLayerLoop_spec (func : List MLayer → ℚ) :
    ∀ (ds : List (Bool × List Bitwidth)) (st : List MLayer) (acc : List (Bitwidth × ℚ))
      (st' : List MLayer) (acc' : List (Bitwidth × ℚ)),
      baselineLayerLoop func ds st acc = .ok (st', acc') →
      st'.map MLayer.sig = st.map MLayer.sig ∧
      ((acc.map Prod.fst).Nodup → (acc'.map Prod.fst).Nodup) ∧
      (∀ q ∈ acc', q ∈ acc ∨ ∃ d ∈ ds, d.1 = true ∧ q.1 ∈ d.2) := by
  intro ds
  induction ds with
  | nil =>
    intro st acc st' acc' h
    simp only [baselineLayerLoop, Except.ok.injEq, Prod.mk.injEq] at h
    obtain ⟨h1, h2⟩ := h
    subst h1
    subst h2
    exact ⟨rfl, fun hn => hn, fun q hq => Or.inl hq⟩
  | cons d rest ih =>
    intro st acc st' acc' h
    by_cases hd : d.1 = true
    · rw [baselineLayerLoop, if_pos hd] at h
      cases hb : baselineBitwidthLoop func d.2 st acc with
      | error e => simp [hb] at h
      | ok p =>
        obtain ⟨st2, acc2⟩ := p
        simp only [hb] at h
        obtain ⟨hsig2, hnd2, hq2⟩ := baselineBitwidthLoop_spec func d.2 st acc st2 acc2 hb
        obtain ⟨hsig, hnd, hq⟩ := ih st2 acc2 st' acc' h
        refine ⟨hsig.trans hsig2, fun hndacc => hnd (hnd2 hndacc), ?_⟩
        intro q hqm
        rcases hq q hqm with hin2 | ⟨d2, hd2, hdt, hbw⟩
        · rcases hq2 q hin2 with hin | hbw
          · exact Or.inl hin
          · exact Or.inr ⟨d, List.mem_cons_self _ _, hd, hbw⟩
        · exact Or.inr ⟨d2, List.mem_cons_of_mem _ hd2, hdt, hbw⟩
    · rw [baselineLayerLoop, if_neg hd] at h
      obtain ⟨hsig, hnd, hq⟩ := ih st acc st' acc' h
      refine ⟨hsig, hnd, fun q hqm => ?_⟩
      rcases hq q hqm with hin | ⟨d2, hd2, hdt, hbw⟩
      · exact Or.inl hin
      · exact Or.inr ⟨d2, List.mem_cons_of_mem _ hd2, hdt, hbw⟩

theorem zipWith_keep_second (a b : List Nat) (h : a.length = b.length) :
    List.zipWith (fun _ i => i) a b = b := by
  induction a generalizing b with
  | nil =>
    cases b with
    | nil => rfl
    | cons y ys => simp at h
  | cons x xs ih =>
    cases b with
    | nil => simp at h
    | cons y ys =>
      simp only [List.zipWith_cons_cons]
      rw [ih ys (by simpa using h)]

theorem restore_eq (st layers : List MLayer)
    (hsig : st.map MLayer.sig = layers.map MLayer.sig) :
    List.zipWith
      (fun layer saved =>
        { layer with filtersIdx := List.zipWith (fun _ i => i) layer.filtersIdx saved })
      st (layers.map MLayer.filtersIdx) = layers := by
  induction st generalizing layers with
  | nil =>
    cases layers with
    | nil => rfl
    | cons l ls => simp at hsig
  | cons s ss ih =>
    cases layers with
    | nil => simp at hsig
    | cons l ls =>
      simp only [List.map_cons, List.cons.injEq] at hsig
      obtain ⟨hsl, hrest⟩ := hsig
      simp only [List.map_cons, List.zipWith_cons_cons, List.cons.injEq]
      constructor
      · obtain ⟨sf, sm, sb⟩ := s
        obtain ⟨lf, lm, lb⟩ := l
        simp only [MLayer.sig, Prod.mk.injEq] at hsl
        obtain ⟨h1, h2, h3⟩ := hsl
        subst h1
        subst h2
        simp only [MLayer.mk.injEq, and_true]
        exact zipWith_keep_second sf lf h3
      · exact ih ls hrest

/-- C5: on completion, `calcBaselineBops` (via `applyOnBaseline`) leaves
every filter's selection index in every layer exactly equal to its
pre-call value — the whole layer list is restored verbatim — and its
baseline-bops table has pairwise-distinct bitwidth keys, each of which
occurs in the bitwidth list of some `MixedConvWithReLU` layer of the
model; since the loop evaluates `countBops` exactly once per appended
table entry, bops are computed at most once per such distinct uniform
bitwidth. -/
theorem calcBaselineBops_restores_and_unique (countBops : List MLayer → ℚ)
    (layersList final : List MLayer) (baselineBops : List (Bitwidth × ℚ))
    (h : calcBaselineBops countBops layersList = .ok (final, baselineBops)) :
    final = layersList ∧
    (baselineBops.map Prod.fst).Nodup ∧
    (∀ bw ∈ baselineBops.map Prod.fst,
      ∃ layer ∈ layersList, layer.mixedConvWithReLU = true ∧ bw ∈ layer.bitwidths) := by
  unfold calcBaselineBops applyOnBaseline at h
  cases hloop : baselineLayerLoop countBops
      (layersList.map fun l => (l.mixedConvWithReLU, l.bitwidths)) layersList [] with
  | error e => simp [hloop] at h
  | ok p =>
    obtain ⟨st, bops⟩ := p
    simp only [hloop, Except.ok.injEq, Prod.mk.injEq] at h
    obtain ⟨hfin, hbops⟩ := h
    subst hbops
    obtain ⟨hsig, hnd, hmem⟩ := baselineLayerLoop_spec countBops _ _ _ _ _ hloop
    refine ⟨?_, hnd (by simp), ?_⟩
    · rw [← hfin]
      exact restore_eq st layersList hsig
    · intro bw hbw
      rcases List.mem_map.mp hbw with ⟨q, hq, hfst⟩
      rcases hmem q hq with h0 | ⟨d, hd, hdt, hbw2⟩
      · simp at h0
      · rcases List.mem_map.mp hd with ⟨layer, hl, hld⟩
        subst hfst
        refine ⟨layer, hl, ?_, ?_⟩
        · rw [← hld] at hdt
          exact hdt
        · rw [← hld] at hbw2
          exact hbw2

/-- Concrete two-layer model for the C5 witness: the second layer is not a
`MixedConvWithReLU` layer and carries `None` activation bitwidths, so the
perturbation exercises the `(bitwidth[0], None)` fallback lookup. -/
def exC5layers : List MLayer :=
  [⟨[0, 0], true, [(2, some 2), (4, some 4)]⟩,
   ⟨[1], false, [(2, none), (4, none)]⟩]

def exC5func : List MLayer → ℚ := fun _ => 0

def exC5result : List MLayer × List (Bitwidth × ℚ) :=
  match calcBaselineBops exC5func exC5layers with
  | .ok r => r
  | .error _ => ([], [])

theorem calcBaselineBops_restores_and_unique_witness :
    calcBaselineBops exC5func exC5layers = .ok exC5result ∧
    exC5result.1 = exC5layers ∧
    (exC5result.2.map Prod.fst).Nodup := by
  have h := calcBaselineBops_restores_and_unique exC5func exC5layers
    exC5result.1 exC5result.2 rfl
  exact ⟨rfl, h.1, h.2.1⟩
